import Mathlib

/-!
Shallow embedding of `src/arb_tracker.py`: the profit calculator
(`calculate_arb_profit`), the two rate fetchers' result handling, the
shared history buffer with its two append paths (`update_profit_history`
polling cycle and the `/get_profit_data` handler), the
`/get_profit_history` snapshot endpoint, and the `/update_settings`
endpoint.  Python floats are modelled as exact rationals; wall-clock
instants are modelled as natural numbers.
-/

namespace ArbTracker

/-- The dictionary built by `calculate_arb_profit` (`arb_tracker.py`
lines 84-95).  `timestamp` is the second-resolution capture instant
(`datetime.now().strftime(...)`), modelled as a natural number. -/
structure ProfitReport where
  timestamp : Nat
  valr_rate : ℚ
  market_rate : ℚ
  spread : ℚ
  initial_zar : ℚ
  usd_purchased : ℚ
  wire_fee : ℚ
  final_zar : ℚ
  profit_zar : ℚ
  profit_percent : ℚ
deriving DecidableEq, Repr, Inhabited

/-- Result handling of `get_valr_usdc_zar_rate` (lines 21-36): the
argument is the `bidPrice` field of a successfully fetched body
(`none` models a transport, parsing or missing-field failure).  The
code runs `if bid_price:` on the numeric field, so a bid of `0` is
falsy and mapped to `None` just like a missing field. -/
def get_valr_usdc_zar_rate (bidPrice : Option ℚ) : Option ℚ :=
  match bidPrice with
  | some v => if v = 0 then none else some v
  | none => none

/-- `calculate_arb_profit` (lines 54-95).  The two fetch results are
passed as `Option` values; the guard `if not highest_bid_rate or not
market_rate: return None` treats both `None` and a numeric `0` as
unavailable (Python falsiness). -/
def calculate_arb_profit (usd_purchased initial_investment : ℚ)
    (highest_bid_rate market_rate : Option ℚ) (now : Nat) :
    Option ProfitReport :=
  match highest_bid_rate, market_rate with
  | some b, some m =>
    if b = 0 ∨ m = 0 then none
    else
      let wire_transfer_fee := max (0.0013 * usd_purchased) 10
      let usd_after_wire := usd_purchased - wire_transfer_fee
      let tick_size : ℚ := 0.001
      let sell_rate := b + tick_size
      let zar_from_usdc := usd_after_wire * sell_rate
      let withdrawal_fee : ℚ := 30
      let final_zar := zar_from_usdc - withdrawal_fee
      let profit := final_zar - initial_investment
      let profit_percent :=
        if 0 < initial_investment then profit / initial_investment * 100 else 0
      let spread := (b / m - 1) * 100
      some {
        timestamp := now
        valr_rate := b
        market_rate := m
        spread := spread
        initial_zar := initial_investment
        usd_purchased := usd_purchased
        wire_fee := wire_transfer_fee
        final_zar := final_zar
        profit_zar := profit
        profit_percent := profit_percent }
  | _, _ => none

/-- An element of the module-level `profit_history` list: the report
dictionary together with the bookkeeping `datetime` key that both
append paths add just before inserting (lines 105 and 706).  `none`
models a dictionary whose `datetime` key is absent or deleted. -/
structure HistoryEntry where
  report : ProfitReport
  date_time : Option Nat
deriving DecidableEq, Repr, Inhabited

/-- The key of `profit_history.sort(key=...)` (lines 711-713 and
726-728): the `datetime` value when that key holds a datetime,
otherwise the parsed `timestamp` string. -/
def entryKey (e : HistoryEntry) : Nat :=
  match e.date_time with
  | some d => d
  | none => e.report.timestamp

/-- Boolean comparison used for sorting buffer entries by capture
time. -/
def entryLE (a b : HistoryEntry) : Bool :=
  decide (entryKey a ≤ entryKey b)

/-- The in-place `list.sort` of the buffer, a stable sort by
`entryKey`. -/
def sortEntries (l : List HistoryEntry) : List HistoryEntry :=
  l.mergeSort entryLE

/-- A buffer is in chronological order when its capture keys ascend. -/
def chronSorted (l : List HistoryEntry) : Prop :=
  l.Pairwise fun a b => entryKey a ≤ entryKey b

/-- One successful cycle of `update_profit_history` (lines 101-110):
tag the fresh report with a `datetime` key, append it, then keep only
the last 1000 elements (`profit_history[-1000:]`). -/
def pollAppend (buf : List HistoryEntry) (result : ProfitReport) (now : Nat) :
    List HistoryEntry :=
  let buf' := buf ++ [⟨result, some now⟩]
  if 1000 < buf'.length then buf'.drop (buf'.length - 1000) else buf'

/-- The history update inside the `/get_profit_data` handler (lines
704-714): skip when some stored report already has the same
`timestamp`; otherwise append a tagged copy and, if the length now
exceeds 1000, sort chronologically and `pop(0)`. -/
def demandAppend (buf : List HistoryEntry) (result : ProfitReport) (now : Nat) :
    List HistoryEntry :=
  if buf.any (fun e => e.report.timestamp == result.timestamp) then buf
  else
    let buf' := buf ++ [⟨result, some now⟩]
    if 1000 < buf'.length then (sortEntries buf').drop 1 else buf'

/-- The two writers of `profit_history`: a polling-loop cycle and the
append half of an on-demand `/get_profit_data` request. -/
inductive BufOp where
  | poll (result : ProfitReport) (now : Nat)
  | demand (result : ProfitReport) (now : Nat)

def applyOp (buf : List HistoryEntry) : BufOp → List HistoryEntry
  | .poll r now => pollAppend buf r now
  | .demand r now => demandAppend buf r now

def applyOps (buf : List HistoryEntry) (ops : List BufOp) : List HistoryEntry :=
  ops.foldl applyOp buf

/-- An HTTP response of `/get_profit_data`: the JSON report, or the
error payload together with its status code. -/
inductive Response where
  | ok (r : ProfitReport)
  | error (status : Nat)
deriving DecidableEq, Repr

/-- The `/get_profit_data` handler (lines 693-718): compute the report
for the requested notional; on success append it to the history
(deduplicated by timestamp) and return it, otherwise return the error
payload with status 500 and leave the history untouched. -/
def get_profit_data (buf : List HistoryEntry) (usd_value initial_investment : ℚ)
    (highest_bid_rate market_rate : Option ℚ) (nowCalc nowAppend : Nat) :
    Response × List HistoryEntry :=
  match calculate_arb_profit usd_value initial_investment highest_bid_rate
      market_rate nowCalc with
  | some r => (Response.ok r, demandAppend buf r nowAppend)
  | none => (Response.error 500, buf)

/-- Deletion of the `datetime` bookkeeping key from an entry
dictionary (`del item['datetime']`, line 733). -/
def stripEntry (e : HistoryEntry) : HistoryEntry :=
  { e with date_time := none }

/-- The `/get_profit_history` handler (lines 720-735).
`profit_history.copy()` is a shallow copy: sorting rearranges only the
copy, but the copy holds the very dictionaries the buffer holds, so
`del item['datetime']` mutates the stored entries as well.  The result
pairs the JSON payload with the buffer as the handler leaves it. -/
def get_profit_history (buf : List HistoryEntry) :
    List HistoryEntry × List HistoryEntry :=
  ((sortEntries buf).map stripEntry, buf.map stripEntry)

/-- The two mutable settings globals, `initial_investment` and
`usd_purchased` (lines 16-17). -/
structure Settings where
  initial_investment : ℚ
  usd_purchased : ℚ
deriving DecidableEq, Repr

/-- Character-list prefix test; `prefixChars p l` holds when `p` is a
prefix of `l`.  It models Python `line.startswith(key)`. -/
def prefixChars : List Char → List Char → Bool
  | [], _ => true
  | _ :: _, [] => false
  | p :: ps, c :: cs => p == c && prefixChars ps cs

/-- `line.startswith(key)` on the text of an `.env` line. -/
def lineHasKey (line key : String) : Bool :=
  prefixChars key.data line.data

/-- The `/update_settings` handler (lines 737-761): each key present
in the body replaces the in-memory global, then the `.env` store is
rewritten line by line — a line starting with `RANDS=` or
`USD_PURCHASED=` is replaced with that key followed by the current
in-memory value, and every other line is written back verbatim. -/
def update_settings (s : Settings) (new_initial new_usd : Option ℚ)
    (envLines : List String) : Settings × List String :=
  let init' := match new_initial with
    | some v => v
    | none => s.initial_investment
  let usd' := match new_usd with
    | some v => v
    | none => s.usd_purchased
  (⟨init', usd'⟩,
    envLines.map fun line =>
      if lineHasKey line "RANDS=" then "RANDS=" ++ toString init'
      else if lineHasKey line "USD_PURCHASED=" then
        "USD_PURCHASED=" ++ toString usd'
      else line)

/-- A report holding only a capture timestamp, used for concrete
buffer states in witnesses and counterexamples. -/
def dummyReport (t : Nat) : ProfitReport :=
  { timestamp := t, valr_rate := 1, market_rate := 1, spread := 0,
    initial_zar := 0, usd_purchased := 0, wire_fee := 10, final_zar := 0,
    profit_zar := 0, profit_percent := 0 }

/-- A buffer entry captured at instant `t`. -/
def dummyEntry (t : Nat) : HistoryEntry :=
  { report := dummyReport t, date_time := some t }

/-- A chronologically sorted buffer holding exactly 1000 entries. -/
def fullBuffer : List HistoryEntry :=
  (List.range 1000).map dummyEntry

/-- Claim C1: for every `usd_purchased` and every pair of successfully
fetched positive rates, the calculator returns a report with
`wire_fee = max(0.0013 * usd_purchased, 10)`,
`final_zar = (usd_purchased - wire_fee) * (valr_rate + 0.001) - 30`,
`profit_zar = final_zar - initial_investment` and
`spread = (valr_rate / market_rate - 1) * 100`. -/
theorem C1_profit_formulas (usd init b m : ℚ) (now : Nat)
    (hb : 0 < b) (hm : 0 < m) :
    ∃ r : ProfitReport,
      calculate_arb_profit usd init (some b) (some m) now = some r ∧
      r.wire_fee = max (0.0013 * usd) 10 ∧
      r.final_zar = (usd - r.wire_fee) * (b + 0.001) - 30 ∧
      r.profit_zar = r.final_zar - init ∧
      r.spread = (b / m - 1) * 100 := by
  have hcond : ¬ (b = 0 ∨ m = 0) := by
    push_neg
    exact ⟨ne_of_gt hb, ne_of_gt hm⟩
  rw [calculate_arb_profit, if_neg hcond]
  exact ⟨_, rfl, rfl, rfl, rfl, rfl⟩

/-- Concrete instance of `C1_profit_formulas`. -/
theorem C1_profit_formulas_witness :
    ∃ r : ProfitReport,
      calculate_arb_profit 1000 18000 (some 18.5) (some 18.4) 0 = some r ∧
      r.wire_fee = max (0.0013 * 1000) 10 ∧
      r.final_zar = (1000 - r.wire_fee) * (18.5 + 0.001) - 30 ∧
      r.profit_zar = r.final_zar - 18000 ∧
      r.spread = (18.5 / 18.4 - 1) * 100 :=
  C1_profit_formulas 1000 18000 18.5 18.4 0 (by norm_num) (by norm_num)

/-- Claim C2 as stated is false on the code: with `usd_purchased = 1000`
the wire fee is `max(0.0013 * 1000, 10) = max(1.3, 10) = 10`, not `13`,
and consequently `final_zar` is not `18231.987`. -/
theorem C2_counterexample :
    Option.map ProfitReport.wire_fee
        (calculate_arb_profit 1000 18000 (some 18.5) (some 18.4) 0) ≠ some 13 ∧
    Option.map ProfitReport.final_zar
        (calculate_arb_profit 1000 18000 (some 18.5) (some 18.4) 0) ≠ some 18231.987 := by
  constructor <;> norm_num [calculate_arb_profit]

/-- Claim C2 amended: on `usd_purchased = 1000`, `valr_rate = 18.50`,
`market_rate = 18.40`, `initial_investment = 18000` the calculator
yields `wire_fee = 10`, `usd_after_wire = 990`, `sell_rate = 18.501`,
`final_zar = 990 * 18.501 - 30 = 18285.99`, `profit_zar = 285.99`, and
`spread = (18.50 / 18.40 - 1) * 100 = 25/46`, approximately 0.5435
percent. -/
theorem C2_example :
    calculate_arb_profit 1000 18000 (some 18.5) (some 18.4) 0 =
      some { timestamp := 0, valr_rate := 18.5, market_rate := 18.4,
             spread := 25 / 46, initial_zar := 18000, usd_purchased := 1000,
             wire_fee := 10, final_zar := 18285.99, profit_zar := 285.99,
             profit_percent := 9533 / 6000 } ∧
    (1000 : ℚ) - 10 = 990 ∧
    (18.5 : ℚ) + 0.001 = 18.501 ∧
    (990 : ℚ) * 18.501 - 30 = 18285.99 ∧
    (25 / 46 : ℚ) = (18.5 / 18.4 - 1) * 100 ∧
    |(25 / 46 : ℚ) - 0.5435| < 1 / 10000 := by
  refine ⟨by norm_num [calculate_arb_profit], by norm_num, by norm_num, by norm_num,
    by norm_num, by norm_num [abs_lt]⟩

/-- Claim C3: whenever the calculator produces a report and
`initial_investment ≤ 0`, the reported `profit_percent` is `0`
regardless of the sign of `profit_zar` (the division is guarded). -/
theorem C3_profit_percent_guard (usd init : ℚ) (vf mf : Option ℚ)
    (now : Nat) (r : ProfitReport)
    (h : calculate_arb_profit usd init vf mf now = some r)
    (hinit : init ≤ 0) : r.profit_percent = 0 := by
  cases vf with
  | none => simp [calculate_arb_profit] at h
  | some b =>
    cases mf with
    | none => simp [calculate_arb_profit] at h
    | some m =>
      rw [calculate_arb_profit] at h
      by_cases hc : b = 0 ∨ m = 0
      · rw [if_pos hc] at h
        exact absurd h (by simp)
      · rw [if_neg hc] at h
        simp only [Option.some.injEq] at h
        subst h
        exact if_neg (not_lt.mpr hinit)

/-- Concrete instance of `C3_profit_percent_guard`. -/
theorem C3_profit_percent_guard_witness :
    (⟨0, 18.5, 18.4, 25 / 46, 0, 1000, 10, 18285.99, 18285.99, 0⟩ :
        ProfitReport).profit_percent = 0 :=
  C3_profit_percent_guard 1000 0 (some 18.5) (some 18.4) 0 _
    (by norm_num [calculate_arb_profit]) (le_refl 0)

/-- `entryLE` is transitive. -/
theorem entryLE_trans : ∀ a b c : HistoryEntry,
    entryLE a b → entryLE b c → entryLE a c := by
  intro a b c hab hbc
  simp only [entryLE, decide_eq_true_eq] at hab hbc ⊢
  exact le_trans hab hbc

/-- `entryLE` is total. -/
theorem entryLE_total : ∀ a b : HistoryEntry, entryLE a b || entryLE b a := by
  intro a b
  simp only [entryLE, Bool.or_eq_true, decide_eq_true_eq]
  exact Nat.le_total _ _

/-- Chronological order stated through the Boolean comparison. -/
theorem chronSorted_iff (l : List HistoryEntry) :
    chronSorted l ↔ l.Pairwise fun a b => entryLE a b = true := by
  constructor
  · exact fun h => h.imp fun hab => by
      simpa only [entryLE, decide_eq_true_eq] using hab
  · exact fun h => h.imp fun hab => by
      simpa only [entryLE, decide_eq_true_eq] using hab

/-- A polling-loop append never leaves more than 1000 entries. -/
theorem pollAppend_length_le (buf : List HistoryEntry) (r : ProfitReport)
    (now : Nat) : (pollAppend buf r now).length ≤ 1000 := by
  simp only [pollAppend]
  split
  · rename_i h
    simp only [List.length_drop, List.length_append, List.length_cons,
      List.length_nil] at h ⊢
    omega
  · rename_i h
    simp only [not_lt, List.length_append, List.length_cons,
      List.length_nil] at h ⊢
    omega

/-- An on-demand append preserves the 1000-entry bound. -/
theorem demandAppend_length_le (buf : List HistoryEntry) (r : ProfitReport)
    (now : Nat) (h : buf.length ≤ 1000) :
    (demandAppend buf r now).length ≤ 1000 := by
  simp only [demandAppend]
  split
  · exact h
  · split
    · rename_i hover
      simp only [sortEntries, List.length_drop, List.length_mergeSort,
        List.length_append, List.length_cons, List.length_nil] at hover ⊢
      omega
    · rename_i hover
      simp only [not_lt, List.length_append, List.length_cons,
        List.length_nil] at hover ⊢
      omega

/-- Every single buffer operation preserves the 1000-entry bound. -/
theorem applyOp_length_le (buf : List HistoryEntry) (op : BufOp)
    (h : buf.length ≤ 1000) : (applyOp buf op).length ≤ 1000 := by
  cases op with
  | poll r now => exact pollAppend_length_le buf r now
  | demand r now => exact demandAppend_length_le buf r now h

/-- Every sequence of buffer operations preserves the 1000-entry
bound. -/
theorem applyOps_length_le (buf : List HistoryEntry) (ops : List BufOp)
    (h : buf.length ≤ 1000) : (applyOps buf ops).length ≤ 1000 := by
  induction ops generalizing buf with
  | nil => exact h
  | cons op ops ih => exact ih _ (applyOp_length_le buf op h)

/-- The capture key of a freshly tagged entry is its tag. -/
theorem entryKey_dummyEntry (t : Nat) : entryKey (dummyEntry t) = t := rfl

/-- `fullBuffer` is chronologically sorted. -/
theorem fullBuffer_sorted : chronSorted fullBuffer := by
  unfold chronSorted fullBuffer
  rw [List.pairwise_map]
  exact (List.pairwise_lt_range 1000).imp le_of_lt

/-- `fullBuffer` holds exactly 1000 entries. -/
theorem fullBuffer_length : fullBuffer.length = 1000 := by
  simp [fullBuffer]

/-- Every entry of `fullBuffer` was captured before instant 1000. -/
theorem fullBuffer_key_lt (e : HistoryEntry) (he : e ∈ fullBuffer) :
    entryKey e < 1000 ∧ e.report.timestamp < 1000 := by
  simp only [fullBuffer, List.mem_map] at he
  obtain ⟨i, hi, rfl⟩ := he
  rw [List.mem_range] at hi
  exact ⟨hi, hi⟩

/-- Claim C4: after any sequence of appends to the history buffer by
the polling loop or the on-demand handler the buffer holds at most
1000 entries, and when an insertion makes the size exceed 1000 the
chronologically oldest entry (the head of the sorted buffer) is the
one removed, by either append path. -/
theorem C4_capacity :
    (∀ ops : List BufOp, (applyOps [] ops).length ≤ 1000) ∧
    (∀ (buf : List HistoryEntry) (r : ProfitReport) (now : Nat),
      chronSorted buf → buf.length = 1000 →
      (∀ e ∈ buf, entryKey e ≤ now) →
      (∀ e ∈ buf, e.report.timestamp ≠ r.timestamp) →
      buf.headI :: buf.tail = buf ∧
      (∀ e ∈ buf ++ [⟨r, some now⟩], entryKey buf.headI ≤ entryKey e) ∧
      pollAppend buf r now = buf.tail ++ [⟨r, some now⟩] ∧
      demandAppend buf r now = buf.tail ++ [⟨r, some now⟩]) := by
  constructor
  · intro ops
    exact applyOps_length_le [] ops (by simp)
  · intro buf r now hsort hlen hkey hfresh
    cases buf with
    | nil => simp at hlen
    | cons a t =>
      have hl : ((a :: t) ++ [(⟨r, some now⟩ : HistoryEntry)]).length = 1001 := by
        simp only [List.length_append, List.length_cons, List.length_nil]
        simp only [List.length_cons] at hlen
        omega
      have hmin : ∀ e ∈ (a :: t) ++ [⟨r, some now⟩],
          entryKey a ≤ entryKey e := by
        intro e he
        rcases List.mem_append.mp he with h1 | h1
        · rcases List.mem_cons.mp h1 with rfl | h2
          · exact le_refl _
          · exact (List.pairwise_cons.mp hsort).1 e h2
        · rw [List.mem_singleton] at h1
          subst h1
          exact hkey a (List.mem_cons_self a t)
      have hpoll : pollAppend (a :: t) r now = t ++ [⟨r, some now⟩] := by
        simp only [pollAppend]
        rw [hl, if_pos (by norm_num)]
        simp [List.cons_append]
      have hdemand : demandAppend (a :: t) r now = t ++ [⟨r, some now⟩] := by
        have hany : ((a :: t).any fun e =>
            e.report.timestamp == r.timestamp) = false := by
          rw [List.any_eq_false]
          intro e he
          simpa using hfresh e he
        have hsorted' : ((a :: t) ++ [(⟨r, some now⟩ : HistoryEntry)]).Pairwise
            fun x y => entryLE x y = true := by
          apply (chronSorted_iff _).mp
          unfold chronSorted
          rw [List.pairwise_append]
          refine ⟨hsort, List.pairwise_singleton _ _, ?_⟩
          intro x hx y hy
          rw [List.mem_singleton] at hy
          subst hy
          exact hkey x hx
        simp only [demandAppend]
        rw [if_neg (by rw [hany]; exact Bool.false_ne_true)]
        rw [hl, if_pos (by norm_num)]
        rw [show sortEntries ((a :: t) ++ [⟨r, some now⟩]) =
            (a :: t) ++ [⟨r, some now⟩] from List.mergeSort_of_sorted hsorted']
        simp [List.cons_append]
      exact ⟨rfl, hmin, hpoll, hdemand⟩

/-- Concrete instance of `C4_capacity`: on a sorted 1000-entry buffer
both append paths evict exactly the oldest entry. -/
theorem C4_capacity_witness :
    (applyOps [] [BufOp.poll (dummyReport 0) 0,
        BufOp.demand (dummyReport 1) 1]).length ≤ 1000 ∧
    (fullBuffer.headI :: fullBuffer.tail = fullBuffer ∧
     (∀ e ∈ fullBuffer ++ [⟨dummyReport 2000, some 2000⟩],
        entryKey fullBuffer.headI ≤ entryKey e) ∧
     pollAppend fullBuffer (dummyReport 2000) 2000 =
        fullBuffer.tail ++ [⟨dummyReport 2000, some 2000⟩] ∧
     demandAppend fullBuffer (dummyReport 2000) 2000 =
        fullBuffer.tail ++ [⟨dummyReport 2000, some 2000⟩]) :=
  ⟨C4_capacity.1 _,
   C4_capacity.2 fullBuffer (dummyReport 2000) 2000 fullBuffer_sorted
     fullBuffer_length
     (fun e he =>
       le_of_lt (lt_of_lt_of_le (fullBuffer_key_lt e he).1
         (show (1000 : Nat) ≤ 2000 by norm_num)))
     (fun e he =>
       Nat.ne_of_lt (lt_of_lt_of_le (fullBuffer_key_lt e he).2
         (show (1000 : Nat) ≤ 2000 by norm_num)))⟩

/-- Claim C5 as stated is false on the code: the polling loop appends
without any duplicate check, so appending a report whose timestamp
already occurs in the buffer changes the buffer and leaves two entries
sharing a timestamp. -/
theorem C5_counterexample :
    pollAppend [dummyEntry 5] (dummyReport 5) 6 =
      [dummyEntry 5, ⟨dummyReport 5, some 6⟩] ∧
    pollAppend [dummyEntry 5] (dummyReport 5) 6 ≠ [dummyEntry 5] ∧
    (pollAppend [dummyEntry 5] (dummyReport 5) 6).map
        (fun e => e.report.timestamp) = [5, 5] := by
  refine ⟨?_, ?_, ?_⟩ <;> decide

/-- Claim C5 amended: only the on-demand `/get_profit_data` append
path checks for duplicates — appending through it a report whose
timestamp equals the timestamp of a stored entry leaves the buffer
unchanged; the polling loop performs no such check. -/
theorem C5_demand_dedup (buf : List HistoryEntry) (r : ProfitReport)
    (now : Nat) (h : ∃ e ∈ buf, e.report.timestamp = r.timestamp) :
    demandAppend buf r now = buf := by
  obtain ⟨e, he, hts⟩ := h
  simp only [demandAppend]
  rw [if_pos]
  rw [List.any_eq_true]
  exact ⟨e, he, by simp [hts]⟩

/-- Concrete instance of `C5_demand_dedup`. -/
theorem C5_demand_dedup_witness :
    demandAppend [dummyEntry 5] (dummyReport 5) 6 = [dummyEntry 5] :=
  C5_demand_dedup _ _ _ ⟨dummyEntry 5, by simp, rfl⟩

/-- Claim C6: for every buffer contents, whatever the insertion order
that produced it, the `/get_profit_history` payload lists all stored
entries (with the bookkeeping key stripped) in ascending order of
capture time.  The hypothesis says each entry's bookkeeping capture
key agrees with its report timestamp, which both append paths
guarantee at the model's time resolution. -/
theorem C6_snapshot_sorted (buf : List HistoryEntry)
    (hkey : ∀ e ∈ buf, entryKey e = e.report.timestamp) :
    ((get_profit_history buf).1.Pairwise
        fun a b => a.report.timestamp ≤ b.report.timestamp) ∧
    (get_profit_history buf).1.Perm (buf.map stripEntry) := by
  constructor
  · show (((sortEntries buf).map stripEntry).Pairwise
        fun a b => a.report.timestamp ≤ b.report.timestamp)
    rw [List.pairwise_map]
    have hs : (sortEntries buf).Pairwise fun a b => entryLE a b = true :=
      List.sorted_mergeSort entryLE_trans entryLE_total buf
    refine hs.imp_of_mem ?_
    intro a b ha hb hab
    have ha' : a ∈ buf := List.mem_mergeSort.mp ha
    have hb' : b ∈ buf := List.mem_mergeSort.mp hb
    have hle : entryKey a ≤ entryKey b := of_decide_eq_true hab
    rw [hkey a ha', hkey b hb'] at hle
    exact hle
  · show ((sortEntries buf).map stripEntry).Perm (buf.map stripEntry)
    exact (List.mergeSort_perm buf entryLE).map stripEntry

/-- Concrete instance of `C6_snapshot_sorted`: a buffer inserted out
of order is returned sorted. -/
theorem C6_snapshot_sorted_witness :
    ((get_profit_history [dummyEntry 3, dummyEntry 1]).1.Pairwise
        fun a b => a.report.timestamp ≤ b.report.timestamp) ∧
    (get_profit_history [dummyEntry 3, dummyEntry 1]).1.Perm
      ([dummyEntry 3, dummyEntry 1].map stripEntry) :=
  C6_snapshot_sorted [dummyEntry 3, dummyEntry 1] (by decide)

/-- Claim C7 fails on the code: `profit_history.copy()` is a shallow
copy, so `del item['datetime']` inside `/get_profit_history` deletes
the bookkeeping key from the very dictionaries the buffer stores — the
handler is not read-only, contradicting the code's own comment that
the copy is made "to avoid modifying the original".  On a buffer with
one tagged entry, the entry has lost its `datetime` key after the
handler runs. -/
theorem C7_snapshot_mutates_buffer :
    (get_profit_history [dummyEntry 7]).2 = [⟨dummyReport 7, none⟩] ∧
    (get_profit_history [dummyEntry 7]).2 ≠ [dummyEntry 7] := by
  constructor <;> decide

/-- Claim C8: when either rate fetch is unavailable the calculator
returns no result, `/get_profit_data` answers with the error payload
and status 500, and the history buffer is left unchanged — no
partially filled report is constructed or stored. -/
theorem C8_fetch_failure (buf : List HistoryEntry) (usd init : ℚ)
    (vf mf : Option ℚ) (nc na : Nat) (h : vf = none ∨ mf = none) :
    calculate_arb_profit usd init vf mf nc = none ∧
    get_profit_data buf usd init vf mf nc na = (Response.error 500, buf) := by
  have hc : calculate_arb_profit usd init vf mf nc = none := by
    rcases h with rfl | rfl
    · cases mf <;> rfl
    · cases vf <;> rfl
  refine ⟨hc, ?_⟩
  simp only [get_profit_data, hc]

/-- Concrete instance of `C8_fetch_failure`: the market-rate fetch
fails. -/
theorem C8_fetch_failure_witness :
    calculate_arb_profit 1000 18000 (some 18.5) none 0 = none ∧
    get_profit_data [dummyEntry 1] 1000 18000 (some 18.5) none 0 0 =
      (Response.error 500, [dummyEntry 1]) :=
  C8_fetch_failure [dummyEntry 1] 1000 18000 (some 18.5) none 0 0 (Or.inr rfl)

/-- Claim C9: a settings update whose body carries only
`initial_investment` leaves the in-memory `usd_purchased` unchanged,
keeps the store the same length, writes back verbatim every line that
starts with neither settings key, and produces a line carrying the new
`initial_investment` value (given that the store has a `RANDS=`
line). -/
theorem C9_settings_frame (s : Settings) (v : ℚ) (lines : List String)
    (hR : ∃ l ∈ lines, lineHasKey l "RANDS=" = true) :
    (update_settings s (some v) none lines).1.usd_purchased =
      s.usd_purchased ∧
    (update_settings s (some v) none lines).1.initial_investment = v ∧
    (update_settings s (some v) none lines).2.length = lines.length ∧
    (∀ i : Nat, lineHasKey (lines.getD i "") "RANDS=" = false →
      lineHasKey (lines.getD i "") "USD_PURCHASED=" = false →
      (update_settings s (some v) none lines).2.getD i "" =
        lines.getD i "") ∧
    ("RANDS=" ++ toString v) ∈ (update_settings s (some v) none lines).2 := by
  refine ⟨rfl, rfl, ?_, ?_, ?_⟩
  · show (lines.map _).length = lines.length
    exact List.length_map _ _
  · intro i hA hB
    show (lines.map _).getD i "" = lines.getD i ""
    rcases hil : lines[i]? with _ | l
    · simp [List.getD, hil]
    · have : lines.getD i "" = l := by simp [List.getD, hil]
      rw [this] at hA hB
      simp [List.getD, hil, hA, hB]
  · obtain ⟨l, hl, hkey⟩ := hR
    show _ ∈ lines.map _
    exact List.mem_map.mpr ⟨l, hl, by simp [hkey]⟩

/-- Concrete instance of `C9_settings_frame`: updating only the
capital base rewrites its line and leaves the unrelated line and the
in-memory notional untouched. -/
theorem C9_settings_frame_witness :
    (update_settings ⟨100, 7⟩ (some 20000) none
        ["RANDS=100", "FOO=bar", "USD_PURCHASED=7"]).1.usd_purchased = 7 ∧
    (update_settings ⟨100, 7⟩ (some 20000) none
        ["RANDS=100", "FOO=bar", "USD_PURCHASED=7"]).1.initial_investment =
      20000 ∧
    (update_settings ⟨100, 7⟩ (some 20000) none
        ["RANDS=100", "FOO=bar", "USD_PURCHASED=7"]).2.length =
      (["RANDS=100", "FOO=bar", "USD_PURCHASED=7"] : List String).length ∧
    (∀ i : Nat,
      lineHasKey ((["RANDS=100", "FOO=bar", "USD_PURCHASED=7"] :
          List String).getD i "") "RANDS=" = false →
      lineHasKey ((["RANDS=100", "FOO=bar", "USD_PURCHASED=7"] :
          List String).getD i "") "USD_PURCHASED=" = false →
      (update_settings ⟨100, 7⟩ (some 20000) none
          ["RANDS=100", "FOO=bar", "USD_PURCHASED=7"]).2.getD i "" =
        (["RANDS=100", "FOO=bar", "USD_PURCHASED=7"] :
          List String).getD i "") ∧
    ("RANDS=" ++ toString (20000 : ℚ)) ∈
      (update_settings ⟨100, 7⟩ (some 20000) none
        ["RANDS=100", "FOO=bar", "USD_PURCHASED=7"]).2 :=
  C9_settings_frame ⟨100, 7⟩ 20000 ["RANDS=100", "FOO=bar", "USD_PURCHASED=7"]
    ⟨"RANDS=100", by decide⟩

/-- Claim C10: a rate that is fetched successfully but equals zero is
treated as unavailable through Python falsiness — a zero `bidPrice` is
dropped by the fetcher, and a zero rate reaching the calculator short-
circuits it to no report, although no transport, parsing or
missing-field error occurred. -/
theorem C10_zero_rate_unavailable :
    (∀ (usd init : ℚ) (m : Option ℚ) (now : Nat),
        calculate_arb_profit usd init (some 0) m now = none) ∧
    (∀ (usd init b : ℚ) (now : Nat),
        calculate_arb_profit usd init (some b) (some 0) now = none) ∧
    get_valr_usdc_zar_rate (some 0) = none := by
  refine ⟨?_, ?_, ?_⟩
  · intro usd init m now
    cases m with
    | none => rfl
    | some m => rw [calculate_arb_profit, if_pos (Or.inl rfl)]
  · intro usd init b now
    rw [calculate_arb_profit, if_pos (Or.inr rfl)]
  · rw [get_valr_usdc_zar_rate, if_pos rfl]

end ArbTracker
